import Mathlib

/-!
Shallow embedding of the chat backend (src/chat-app/backend/index.js): the
message store, presence directory, socket handshake, send-message handler and
the contacts / messages / delete-dm API handlers, together with theorems about
the spec's claims on them.

User identities, socket ids and message contents are modelled as `String`;
timestamps and message ids as `Nat`; the Mongo message collection as a
`List Message`; the in-memory `userMap` object as an association list from
user id to socket id.
-/

namespace ChatApp

/-- A persisted message record, following `messageSchema` in index.js:
`sender` and `recipient` are user-id references, `content` is required,
`messageType` optional, `timestamp` server-assigned. `id` models Mongo's
document `_id`. -/
structure Message where
  id : Nat
  sender : String
  recipient : String
  content : String
  messageType : Option String
  timestamp : Nat
deriving DecidableEq, Repr

/-- The in-memory `userMap` object: user id to socket id, one binding per key. -/
abbrev PresenceMap := List (String × String)

/-- Reading `userMap[userId]`: the socket id bound to `uid`, if any. -/
def lookup (m : PresenceMap) (uid : String) : Option String :=
  (m.find? (fun p => p.1 == uid)).map (fun p => p.2)

/-- The assignment `userMap[userId] = socket.id` in the connection handler:
JS object-key assignment, overwriting any prior binding for `uid`. -/
def register (m : PresenceMap) (uid sid : String) : PresenceMap :=
  (uid, sid) :: m.filter (fun p => p.1 != uid)

/-- The statement `delete userMap[userId]` in the disconnect handler: removes
the binding for `uid` unconditionally, whatever socket it currently holds. -/
def unregister (m : PresenceMap) (uid : String) : PresenceMap :=
  m.filter (fun p => p.1 != uid)

/-- Lifecycle events touching `userMap`: a connection handler firing for a
user (after the auth middleware passed) and a disconnect handler firing. -/
inductive PresenceEvent where
  | connect (uid sid : String)
  | disconnect (uid : String)

/-- Effect of one lifecycle event on `userMap`. -/
def presenceStep (m : PresenceMap) : PresenceEvent → PresenceMap
  | .connect uid sid => register m uid sid
  | .disconnect uid => unregister m uid

/-- `userMap` after a sequence of connection lifecycle events, starting from
the empty object `const userMap = {}`. -/
def presenceRun (es : List PresenceEvent) : PresenceMap :=
  es.foldl presenceStep []

/-- A JWT as the socket middleware sees it after `cookie.parse`: the payload
user id together with the facts `jwt.verify` checks (signature validity and
expiry against the shared secret). -/
structure Token where
  userId : String
  sigValid : Bool
  expired : Bool
deriving DecidableEq, Repr

/-- The `jwt.verify(token, SECRET_KEY, ...)` call: yields the decoded payload
user id when the signature verifies and the token is unexpired, else fails. -/
def jwtVerify (t : Token) : Option String :=
  if t.sigValid && !t.expired then some t.userId else none

/-- The `io.use` middleware: takes the `jwt` cookie of the handshake (absent
or a token), fails with `next(new Error(...))` when the token is missing or
`jwt.verify` errors, otherwise passes the payload user id on. -/
def ioUse (token : Option Token) : Except String String :=
  match token with
  | none => .error "Authentication error, no token"
  | some t =>
    match jwtVerify t with
    | none => .error "Authentication error, could not verify token"
    | some uid => .ok uid

/-- A full connection attempt: the `io.use` middleware followed, on success
only, by the `io.on connection` handler registering the socket in `userMap`.
On middleware failure the connection is never established: the map is
returned unchanged and no user id is bound. -/
def connectionAttempt (token : Option Token) (sid : String) (m : PresenceMap) :
    PresenceMap × Except String String :=
  match ioUse token with
  | .error e => (m, .error e)
  | .ok uid => (register m uid sid, .ok uid)

/-- Server state visible to the handlers: the registered users collection
(by id), the message collection, and the presence map. -/
structure ServerState where
  users : List String
  db : List Message
  userMap : PresenceMap
deriving Repr

/-- The `sendMessage` event payload as destructured by the handler; each field
may be absent. -/
structure MessageData where
  sender : Option String
  recipient : Option String
  content : Option String
  messageType : Option String
deriving Repr

/-- JS falsiness of a possibly-missing string field, as tested by
`if (!sender || !recipient || !content)`: absent and empty are falsy. -/
def falsy : Option String → Bool
  | none => true
  | some s => s.isEmpty

/-- `User.findById(id)`: the user document (here just its id) when a user
with that id exists, else `null`. -/
def findById (users : List String) (uid : String) : Option String :=
  if users.contains uid then some uid else none

/-- One `io.to(socketId).emit("receiveMessage", newMessage)` call. -/
structure Emit where
  socketId : String
  message : Message
deriving DecidableEq, Repr

/-- The `socket.on sendMessage` handler. Steps, as in index.js lines 123-151:
field validation (return on any falsy field), `User.findById` resolution of
sender and recipient, `newMessage.save()` — which fails when either resolved
reference is `null` (schema `required: true`) or when the store itself fails
(`saveOk = false`), the failure being caught with no fanout — then, after a
successful save only, an emit to `userMap[recipient]` if present and an emit
to `userMap[sender]` if present. `now` is the server clock at persistence
(`timestamp` default) and `newId` the id Mongo assigns. Returns the new state
and the list of emits, in order. -/
def sendMessage (st : ServerState) (md : MessageData) (saveOk : Bool)
    (now newId : Nat) : ServerState × List Emit :=
  if falsy md.sender || falsy md.recipient || falsy md.content then
    (st, [])
  else
    let sender := md.sender.getD ""
    let recipient := md.recipient.getD ""
    match findById st.users sender, findById st.users recipient with
    | some senderId, some recipientId =>
      if saveOk then
        let newMessage : Message :=
          { id := newId, sender := senderId, recipient := recipientId,
            content := md.content.getD "", messageType := md.messageType,
            timestamp := now }
        let toRecipient :=
          match lookup st.userMap recipient with
          | some sid => [⟨sid, newMessage⟩]
          | none => []
        let toSender :=
          match lookup st.userMap sender with
          | some sid => [⟨sid, newMessage⟩]
          | none => []
        ({ st with db := st.db ++ [newMessage] }, toRecipient ++ toSender)
      else (st, [])
    | _, _ => (st, [])

/-- The filter of `getMessages` and `deleteDm`:
`$or: [{sender: uid, recipient: cid}, {sender: cid, recipient: uid}]`. -/
def matchesPair (uid cid : String) (m : Message) : Bool :=
  (m.sender == uid && m.recipient == cid) || (m.sender == cid && m.recipient == uid)

/-- Timestamp order used by `.sort(\x7btimestamp: 1\x7d)`. -/
def tsLe (a b : Message) : Prop := a.timestamp ≤ b.timestamp

instance : DecidableRel tsLe := fun a b => Nat.decLe a.timestamp b.timestamp

instance : IsTotal Message tsLe := ⟨fun a b => Nat.le_total a.timestamp b.timestamp⟩

instance : IsTrans Message tsLe := ⟨fun _ _ _ h1 h2 => Nat.le_trans h1 h2⟩

/-- Timestamp order used by `.sort(\x7btimestamp: -1\x7d)` (descending). -/
def tsGe (a b : Message) : Prop := b.timestamp ≤ a.timestamp

instance : DecidableRel tsGe := fun a b => Nat.decLe b.timestamp a.timestamp

/-- The `getMessages` handler core (index.js lines 443-461): all messages with
the `$or` participant-pair filter between `uid` and `cid`, sorted by
`timestamp` ascending. -/
def getMessages (db : List Message) (uid cid : String) : List Message :=
  List.insertionSort tsLe (db.filter (matchesPair uid cid))

/-- The `deleteDm` deletion (index.js lines 414-419): `Message.deleteMany`
with the participant-pair `$or` filter, i.e. keep exactly the messages not
matching the pair. -/
def deleteDm (db : List Message) (uid dmId : String) : List Message :=
  db.filter (fun m => !(matchesPair uid dmId m))

/-- The full `deleteDm` handler: 400 when `dmId` is missing, otherwise delete
and answer 200 "DM deleted successfully" whatever the deleted count was. -/
def deleteDmHandler (db : List Message) (uid : String) (dmId : Option String) :
    List Message × Nat :=
  match dmId with
  | none => (db, 400)
  | some d => (deleteDm db uid d, 200)

/-- The `getContacts` handler (index.js lines 346-388), embedded faithfully.
Its `Message.find` filter is `$or: [\x7bsender: uid\x7d, \x7breceiver: uid\x7d]`
but the schema field is `recipient`, not `receiver`, so under Mongoose's
current `strictQuery` default the second disjunct matches no stored document
and only messages the user *sent* are fetched. When that list is nonempty the
`forEach` over it evaluates `currentUserId?.tostring()` on its first
iteration; `tostring` is not a method of a string, so a TypeError is thrown,
caught by the handler's catch, and a 500 response is produced. Only an empty
message list reaches a 200: the early `return []`. The result is the response:
200 with a contact-id list, or an error (500). -/
def getContacts (db : List Message) (uid : String) : Except String (List String) :=
  let messages := List.insertionSort tsGe (db.filter (fun m => m.sender == uid))
  if messages.isEmpty then .ok []
  else .error "TypeError: currentUserId.tostring is not a function"

/-! Presence directory lemmas -/

theorem lookup_register_self (m : PresenceMap) (uid sid : String) :
    lookup (register m uid sid) uid = some sid := by
  simp [lookup, register, List.find?]

theorem lookup_filter_ne_self (m : PresenceMap) (uid : String) :
    lookup (m.filter (fun p => p.1 != uid)) uid = none := by
  have h : (m.filter (fun p => p.1 != uid)).find? (fun p => p.1 == uid) = none := by
    rw [List.find?_eq_none]
    intro p hp
    simp only [List.mem_filter, bne_iff_ne, ne_eq] at hp
    simp [hp.2]
  simp [lookup, h]

theorem lookup_unregister_self (m : PresenceMap) (uid : String) :
    lookup (unregister m uid) uid = none :=
  lookup_filter_ne_self m uid

theorem keysNodup_register (m : PresenceMap) (uid sid : String)
    (h : (m.map Prod.fst).Nodup) :
    ((register m uid sid).map Prod.fst).Nodup := by
  simp only [register, List.map_cons, List.nodup_cons]
  refine ⟨?_, (List.filter_sublist m).map Prod.fst |>.nodup h⟩
  simp only [List.mem_map, List.mem_filter, bne_iff_ne, ne_eq]
  rintro ⟨p, ⟨_, hp⟩, rfl⟩
  exact hp rfl

theorem keysNodup_unregister (m : PresenceMap) (uid : String)
    (h : (m.map Prod.fst).Nodup) :
    ((unregister m uid).map Prod.fst).Nodup :=
  ((List.filter_sublist m).map Prod.fst).nodup h

theorem keysNodup_presenceRun (es : List PresenceEvent) :
    ((presenceRun es).map Prod.fst).Nodup := by
  suffices h : ∀ (m : PresenceMap), (m.map Prod.fst).Nodup →
      ((es.foldl presenceStep m).map Prod.fst).Nodup from h [] (by simp)
  induction es with
  | nil => exact fun m hm => hm
  | cons e t ih =>
    intro m hm
    refine ih (presenceStep m e) ?_
    cases e with
    | connect uid sid => exact keysNodup_register m uid sid hm
    | disconnect uid => exact keysNodup_unregister m uid hm

/-- Claim C5: the presence directory maps each user identity to at most one
connection handle at every reachable instant (its key list stays duplicate
free over any run of connect/disconnect events); a handshake for identity `u`
makes its socket the result of `lookup u`; a second handshake for the same
identity overwrites the first; after a disconnect `lookup u` is absent. -/
theorem presence_directory_invariant :
    (∀ es : List PresenceEvent, ((presenceRun es).map Prod.fst).Nodup) ∧
    (∀ (m : PresenceMap) (u h : String), lookup (register m u h) u = some h) ∧
    (∀ (m : PresenceMap) (u h1 h2 : String),
      lookup (register (register m u h1) u h2) u = some h2) ∧
    (∀ (m : PresenceMap) (u : String), lookup (unregister m u) u = none) :=
  ⟨keysNodup_presenceRun,
   lookup_register_self,
   fun m u h1 h2 => lookup_register_self (register m u h1) u h2,
   lookup_unregister_self⟩

/-- Claim C10: the disconnect handler runs `delete userMap[userId]`
unconditionally, keyed only by the user identity. So after `u`'s registration
with handle `h1` is superseded by `h2` (the live binding is `h2`), the
disconnect of the superseded connection still erases the binding, leaving
`lookup u` absent although `h2`'s connection is still live. -/
theorem disconnect_erases_superseding_registration (m : PresenceMap)
    (u h1 h2 : String) :
    lookup (register (register m u h1) u h2) u = some h2 ∧
    lookup (unregister (register (register m u h1) u h2) u) u = none :=
  ⟨lookup_register_self (register m u h1) u h2,
   lookup_unregister_self (register (register m u h1) u h2) u⟩

/-! Conversation history and deletion -/

/-- Claim C7: the history fetch returns exactly the stored messages whose
(sender, recipient) pair is (U, C) or (C, U) — a permutation of that filter
of the store, and membership is equivalent to it — ordered by the persisted
timestamp field ascending. -/
theorem getMessages_exact_and_sorted (db : List Message) (u c : String) :
    (getMessages db u c).Perm (db.filter (matchesPair u c)) ∧
    (getMessages db u c).Sorted tsLe ∧
    (∀ m : Message, m ∈ getMessages db u c ↔ m ∈ db ∧ matchesPair u c m = true) := by
  refine ⟨List.perm_insertionSort tsLe _, List.sorted_insertionSort tsLe _, ?_⟩
  intro m
  rw [getMessages, List.mem_insertionSort, List.mem_filter]

/-- Claim C8: deleting the U–C conversation removes every message matching the
pair in either direction, so a subsequent history fetch between U and C is
empty; deletion is idempotent, and the handler reports success (200) even when
the conversation is already empty. -/
theorem deleteDm_removes_conversation_idempotent (db : List Message) (u c : String) :
    getMessages (deleteDm db u c) u c = [] ∧
    deleteDm (deleteDm db u c) u c = deleteDm db u c ∧
    (deleteDmHandler db u (some c)).2 = 200 ∧
    deleteDmHandler (deleteDm db u c) u (some c) = (deleteDm db u c, 200) := by
  have hfilter : (deleteDm db u c).filter (matchesPair u c) = [] := by
    simp [deleteDm, List.filter_filter]
  have hidem : deleteDm (deleteDm db u c) u c = deleteDm db u c := by
    simp [deleteDm, List.filter_filter]
  exact ⟨by simp [getMessages, hfilter, List.insertionSort],
         hidem, rfl, by simp [deleteDmHandler, hidem]⟩

/-! Send-message validation and failure handling -/

/-- Claim C2: a `sendMessage` event missing its sender, recipient or content
field is dropped: the state is unchanged and nothing is emitted, so every
subsequent history fetch returns exactly what it returned before the event. -/
theorem sendMessage_missing_field_dropped (st : ServerState) (md : MessageData)
    (saveOk : Bool) (now newId : Nat)
    (h : md.sender = none ∨ md.recipient = none ∨ md.content = none) :
    sendMessage st md saveOk now newId = (st, []) ∧
    ∀ u c, getMessages (sendMessage st md saveOk now newId).1.db u c =
      getMessages st.db u c := by
  have hf : (falsy md.sender || falsy md.recipient || falsy md.content) = true := by
    rcases h with h | h | h <;> simp [falsy, h]
  refine ⟨by simp [sendMessage, hf], fun u c => by simp [sendMessage, hf]⟩

theorem sendMessage_missing_field_dropped_witness :
    sendMessage ⟨["a", "b"], [], []⟩ ⟨some "a", none, some "hi", none⟩ true 5 1 =
      (⟨["a", "b"], [], []⟩, []) :=
  (sendMessage_missing_field_dropped ⟨["a", "b"], [], []⟩
    ⟨some "a", none, some "hi", none⟩ true 5 1 (Or.inr (Or.inl rfl))).1

theorem sendMessage_invalid (st : ServerState) (md : MessageData)
    (saveOk : Bool) (now newId : Nat)
    (h : (falsy md.sender || falsy md.recipient || falsy md.content) = true) :
    sendMessage st md saveOk now newId = (st, []) := by
  unfold sendMessage
  simp [h]

theorem sendMessage_unresolved (st : ServerState) (md : MessageData)
    (saveOk : Bool) (now newId : Nat)
    (h : findById st.users (md.sender.getD "") = none ∨
         findById st.users (md.recipient.getD "") = none) :
    sendMessage st md saveOk now newId = (st, []) := by
  unfold sendMessage
  split
  · rfl
  · dsimp only
    rcases hfs : findById st.users (md.sender.getD "") with _ | s
    · rfl
    · rcases hfr : findById st.users (md.recipient.getD "") with _ | r
      · rfl
      · rcases h with h | h
        · rw [hfs] at h
          exact Option.noConfusion h
        · rw [hfr] at h
          exact Option.noConfusion h

theorem sendMessage_saveFail (st : ServerState) (md : MessageData)
    (now newId : Nat) :
    sendMessage st md false now newId = (st, []) := by
  unfold sendMessage
  split
  · rfl
  · split
    · simp_all
    · dsimp only
      split <;> rfl

theorem sendMessage_success_eq (st : ServerState) (md : MessageData)
    (now newId : Nat) (s r : String)
    (hval : (falsy md.sender || falsy md.recipient || falsy md.content) = false)
    (hs : findById st.users (md.sender.getD "") = some s)
    (hr : findById st.users (md.recipient.getD "") = some r) :
    sendMessage st md true now newId =
      ({ st with db := st.db ++
          [⟨newId, s, r, md.content.getD "", md.messageType, now⟩] },
        (match lookup st.userMap (md.recipient.getD "") with
         | some sid => [⟨sid, ⟨newId, s, r, md.content.getD "", md.messageType, now⟩⟩]
         | none => []) ++
        (match lookup st.userMap (md.sender.getD "") with
         | some sid => [⟨sid, ⟨newId, s, r, md.content.getD "", md.messageType, now⟩⟩]
         | none => [])) := by
  unfold sendMessage
  simp [hval, hs, hr]

/-- Claim C3: when persistence fails the send operation aborts with the state
unchanged and no `receiveMessage` push emitted to any connection; and whenever
anything is emitted, the emitted record is exactly the message that was
appended to the store — fanout happens only after a successful save. -/
theorem sendMessage_persistence_failure_aborts (st : ServerState)
    (md : MessageData) (now newId : Nat) :
    sendMessage st md false now newId = (st, []) ∧
    ∀ (saveOk : Bool) (e : Emit), e ∈ (sendMessage st md saveOk now newId).2 →
      (sendMessage st md saveOk now newId).1.db = st.db ++ [e.message] := by
  refine ⟨sendMessage_saveFail st md now newId, ?_⟩
  intro saveOk e he
  rcases hval : (falsy md.sender || falsy md.recipient || falsy md.content) with _ | _
  case true =>
    rw [sendMessage_invalid st md saveOk now newId hval] at he
    simp at he
  case false =>
  rcases hfs : findById st.users (md.sender.getD "") with _ | s
  · rw [sendMessage_unresolved st md saveOk now newId (Or.inl hfs)] at he
    simp at he
  rcases hfr : findById st.users (md.recipient.getD "") with _ | r
  · rw [sendMessage_unresolved st md saveOk now newId (Or.inr hfr)] at he
    simp at he
  rcases saveOk with _ | _
  case false =>
    rw [sendMessage_saveFail st md now newId] at he
    simp at he
  case true =>
  rw [sendMessage_success_eq st md now newId s r hval hfs hfr] at he ⊢
  rcases List.mem_append.mp he with h1 | h1
  · rcases hlr : lookup st.userMap (md.recipient.getD "") with _ | sid <;>
      rw [hlr] at h1 <;> simp_all
  · rcases hls : lookup st.userMap (md.sender.getD "") with _ | sid <;>
      rw [hls] at h1 <;> simp_all

theorem sendMessage_persistence_failure_aborts_witness :
    (sendMessage ⟨["a", "b"], [], [("b", "s2")]⟩
        ⟨some "a", some "b", some "hi", none⟩ true 5 7).1.db =
      [] ++ [⟨7, "a", "b", "hi", none, 5⟩] :=
  (sendMessage_persistence_failure_aborts ⟨["a", "b"], [], [("b", "s2")]⟩
    ⟨some "a", some "b", some "hi", none⟩ 5 7).2 true
    ⟨"s2", ⟨7, "a", "b", "hi", none, 5⟩⟩ (by decide)

theorem findById_mem (users : List String) (uid v : String)
    (h : findById users uid = some v) : v ∈ users := by
  unfold findById at h
  split at h
  · cases h
    exact List.mem_of_elem_eq_true (by assumption)
  · cases h

/-- Claim C9: a message reaches the store only with resolvable participant
references: every record in the post-send store either predates the send or
has sender and recipient among the existing users; and when either identity
of the event does not resolve via `User.findById`, the save fails (schema
`required` validation on the null reference) and the store is unchanged. -/
theorem sendMessage_no_dangling_references (st : ServerState) (md : MessageData)
    (saveOk : Bool) (now newId : Nat) :
    (∀ m ∈ (sendMessage st md saveOk now newId).1.db,
        m ∈ st.db ∨ (m.sender ∈ st.users ∧ m.recipient ∈ st.users)) ∧
    ((findById st.users (md.sender.getD "") = none ∨
      findById st.users (md.recipient.getD "") = none) →
      (sendMessage st md saveOk now newId).1.db = st.db) := by
  constructor
  · intro m hm
    rcases hval : (falsy md.sender || falsy md.recipient || falsy md.content) with _ | _
    case true =>
      rw [sendMessage_invalid st md saveOk now newId hval] at hm
      exact Or.inl hm
    case false =>
    rcases hfs : findById st.users (md.sender.getD "") with _ | s
    · rw [sendMessage_unresolved st md saveOk now newId (Or.inl hfs)] at hm
      exact Or.inl hm
    rcases hfr : findById st.users (md.recipient.getD "") with _ | r
    · rw [sendMessage_unresolved st md saveOk now newId (Or.inr hfr)] at hm
      exact Or.inl hm
    rcases saveOk with _ | _
    case false =>
      rw [sendMessage_saveFail st md now newId] at hm
      exact Or.inl hm
    case true =>
    rw [sendMessage_success_eq st md now newId s r hval hfs hfr] at hm
    simp only [List.mem_append, List.mem_singleton] at hm
    rcases hm with hm | hm
    · exact Or.inl hm
    · subst hm
      exact Or.inr ⟨findById_mem st.users _ s hfs, findById_mem st.users _ r hfr⟩
  · intro h
    rw [sendMessage_unresolved st md saveOk now newId h]

theorem sendMessage_no_dangling_references_witness :
    (sendMessage ⟨["a"], [], []⟩ ⟨some "a", some "zz", some "hi", none⟩
        true 5 7).1.db = [] :=
  (sendMessage_no_dangling_references ⟨["a"], [], []⟩
    ⟨some "a", some "zz", some "hi", none⟩ true 5 7).2 (Or.inr rfl)

/-! Fanout -/

theorem lookup_cons_pos (p : String × String) (t : PresenceMap) (u : String)
    (h : p.1 = u) : lookup (p :: t) u = some p.2 := by
  simp [lookup, List.find?_cons_of_pos, h]

theorem lookup_cons_neg (p : String × String) (t : PresenceMap) (u : String)
    (h : ¬p.1 = u) : lookup (p :: t) u = lookup t u := by
  simp [lookup, List.find?_cons_of_neg, h]

theorem lookup_mem_values (t : PresenceMap) (v sv : String)
    (h : lookup t v = some sv) : sv ∈ t.map Prod.snd := by
  unfold lookup at h
  rcases hf : t.find? (fun p => p.1 == v) with _ | p
  · rw [hf] at h
    cases h
  · rw [hf] at h
    injection h with h2
    exact h2 ▸ List.mem_map.mpr ⟨p, List.mem_of_find?_eq_some hf, rfl⟩

/-- Distinct identities hold distinct socket ids whenever the directory's
values are duplicate free (as live socket ids are). -/
theorem lookup_ne_of_values_nodup (m : PresenceMap) (u v su sv : String)
    (hnd : (m.map Prod.snd).Nodup) (huv : u ≠ v)
    (hu : lookup m u = some su) (hv : lookup m v = some sv) : su ≠ sv := by
  induction m with
  | nil => simp [lookup] at hu
  | cons p t ih =>
    simp only [List.map_cons, List.nodup_cons] at hnd
    by_cases hpu : p.1 = u
    · have hpv : ¬p.1 = v := by rw [hpu]; exact huv
      rw [lookup_cons_pos p t u hpu] at hu
      rw [lookup_cons_neg p t v hpv] at hv
      injection hu with hsu
      intro heq
      apply hnd.1
      rw [hsu, heq]
      exact lookup_mem_values t v sv hv
    · by_cases hpv : p.1 = v
      · rw [lookup_cons_pos p t v hpv] at hv
        rw [lookup_cons_neg p t u hpu] at hu
        injection hv with hsv
        intro heq
        apply hnd.1
        rw [hsv, ← heq]
        exact lookup_mem_values t u su hu
      · rw [lookup_cons_neg p t u hpu] at hu
        rw [lookup_cons_neg p t v hpv] at hv
        exact ih hnd.2 hu hv

/-- Claim C4 counterexample: user "a", online with socket "s1", sends a
message to themself; the handler's two presence checks both fire and the one
connection receives the persisted record twice, not exactly once. -/
theorem fanout_self_message_double_emit :
    (sendMessage ⟨["a"], [], [("a", "s1")]⟩
        ⟨some "a", some "a", some "hi", none⟩ true 5 7).2 =
      [⟨"s1", ⟨7, "a", "a", "hi", none, 5⟩⟩,
       ⟨"s1", ⟨7, "a", "a", "hi", none, 5⟩⟩] ∧
    ((sendMessage ⟨["a"], [], [("a", "s1")]⟩
        ⟨some "a", some "a", some "hi", none⟩ true 5 7).2.filter
        (fun e => e.socketId == "s1")).length = 2 := by
  constructor <;> rfl

/-- Claim C4 (amended): for a successfully persisted message between distinct
sender A and recipient B (nonempty resolvable ids, nonempty content, and the
directory holding distinct sockets for distinct users, as it does for live
connections): if B is registered at fanout time, B's connection receives
exactly one `receiveMessage` event carrying the persisted record; if B is not
registered, every emitted event goes to A's connection, and the history fetch
between A and B still returns the message. Unamended — with A = B — the
single online connection receives the record twice. -/
theorem fanout_exactly_once_distinct (st : ServerState) (md : MessageData)
    (A B c : String) (now newId : Nat)
    (hA : md.sender = some A) (hB : md.recipient = some B)
    (hc : md.content = some c) (hcne : c ≠ "")
    (hA0 : A ≠ "") (hB0 : B ≠ "")
    (hAu : A ∈ st.users) (hBu : B ∈ st.users) (hAB : A ≠ B)
    (hnd : (st.userMap.map Prod.snd).Nodup) :
    (⟨newId, A, B, c, md.messageType, now⟩ : Message) ∈
        (sendMessage st md true now newId).1.db ∧
    (∀ sidB, lookup st.userMap B = some sidB →
      (sendMessage st md true now newId).2.filter
          (fun e => e.socketId == sidB) =
        [⟨sidB, ⟨newId, A, B, c, md.messageType, now⟩⟩]) ∧
    (lookup st.userMap B = none →
      (∀ e ∈ (sendMessage st md true now newId).2,
          lookup st.userMap A = some e.socketId) ∧
      (⟨newId, A, B, c, md.messageType, now⟩ : Message) ∈
        getMessages (sendMessage st md true now newId).1.db A B) := by
  have hA' : md.sender.getD "" = A := by rw [hA]; rfl
  have hB' : md.recipient.getD "" = B := by rw [hB]; rfl
  have hc' : md.content.getD "" = c := by rw [hc]; rfl
  have hne_isEmpty : ∀ s : String, s ≠ "" → s.isEmpty = false := by
    intro s hs
    rcases h : s.isEmpty with _ | _
    · rfl
    · exact absurd ((String.isEmpty_iff s).mp h) hs
  have hval : (falsy md.sender || falsy md.recipient || falsy md.content) = false := by
    rw [hA, hB, hc]
    simp [falsy, hne_isEmpty A hA0, hne_isEmpty B hB0, hne_isEmpty c hcne]
  have hfs : findById st.users (md.sender.getD "") = some A := by
    rw [hA']
    unfold findById
    rw [if_pos (List.elem_eq_true_of_mem hAu)]
  have hfr : findById st.users (md.recipient.getD "") = some B := by
    rw [hB']
    unfold findById
    rw [if_pos (List.elem_eq_true_of_mem hBu)]
  rw [sendMessage_success_eq st md now newId A B hval hfs hfr, hA', hB', hc']
  refine ⟨by simp, ?_, ?_⟩
  · intro sidB hlB
    rw [hlB]
    rcases hlA : lookup st.userMap A with _ | sidA
    · simp
    · have hne : sidA ≠ sidB :=
        lookup_ne_of_values_nodup st.userMap A B sidA sidB hnd hAB hlA hlB
      have hb : (sidA == sidB) = false := beq_eq_false_iff_ne.mpr hne
      simp [List.filter, hb]
  · intro hlB
    rw [hlB]
    constructor
    · intro e he
      rcases hlA : lookup st.userMap A with _ | sidA <;> rw [hlA] at he
      · simp at he
      · simp at he
        rw [he]
    · rw [getMessages]
      rw [List.mem_insertionSort, List.mem_filter]
      constructor
      · simp
      · simp [matchesPair]

theorem fanout_exactly_once_distinct_witness :
    (sendMessage ⟨["a", "b"], [], [("b", "s2")]⟩
        ⟨some "a", some "b", some "hi", none⟩ true 5 7).2.filter
        (fun e => e.socketId == "s2") =
      [⟨"s2", ⟨7, "a", "b", "hi", none, 5⟩⟩] :=
  (fanout_exactly_once_distinct ⟨["a", "b"], [], [("b", "s2")]⟩
    ⟨some "a", some "b", some "hi", none⟩ "a" "b" "hi" 5 7 rfl rfl rfl
    (by decide) (by decide) (by decide) (by decide) (by decide) (by decide)
    (by decide)).2.1 "s2" rfl

/-! Connection handshake -/

/-- Claim C6: a connection attempt whose handshake carries no token, or a
token failing signature/expiry verification, is rejected: the middleware
errors, the connection handler never runs, and the presence directory is
returned exactly as it was — no registration, no state change. -/
theorem handshake_rejects_bad_token (sid : String) (m : PresenceMap) :
    connectionAttempt none sid m =
      (m, .error "Authentication error, no token") ∧
    ∀ t : Token, jwtVerify t = none →
      connectionAttempt (some t) sid m =
        (m, .error "Authentication error, could not verify token") := by
  refine ⟨rfl, fun t ht => ?_⟩
  simp [connectionAttempt, ioUse, ht]

theorem handshake_rejects_bad_token_witness :
    connectionAttempt (some ⟨"u", true, true⟩) "s1" [] =
      ([], .error "Authentication error, could not verify token") :=
  (handshake_rejects_bad_token "s1" []).2 ⟨"u", true, true⟩ rfl

/-! Contact aggregation -/

/-- Claim C1: at the claim's own scenario — user "a" exchanged a message with
"b" at time 1 and a message with "c" at time 2 — the contacts fetch does not
return the deduplicated recency list ["c", "b"]: the handler's nonempty
message list reaches the `currentUserId?.tostring()` call, the TypeError is
caught, and the response is a 500 error. -/
theorem getContacts_crashes_on_nonempty_history :
    getContacts
        [⟨1, "a", "b", "hi", none, 1⟩, ⟨2, "a", "c", "yo", none, 2⟩] "a" =
      Except.error "TypeError: currentUserId.tostring is not a function" ∧
    getContacts
        [⟨1, "a", "b", "hi", none, 1⟩, ⟨2, "a", "c", "yo", none, 2⟩] "a" ≠
      Except.ok ["c", "b"] := by
  refine ⟨rfl, fun hcontra => ?_⟩
  exact Except.noConfusion hcontra

end ChatApp
